import Mathlib

/-!
Shallow embedding of the runtime bridge in `src-tauri/src/bevy.rs`:
the cooperative driver `run_tauri_app`, the readiness handling in
`handle_tauri_events` / `handle_ready_event`, the frame pacer and the
published frame-rate metric, and the host-event translation in
`handle_window_event` / `handle_window_resize`.

Durations are modelled as exact rationals measured in seconds; the
nanosecond quantisation of `std::time::Duration` and the `f64` literal
`1.0 / 60.0` are abstracted to the exact rational `1 / 60`.  The `u32`
to `f32` pixel-size conversion is modelled as the exact embedding of a
natural number into the rationals (exact in `f32` for all realistic
window sizes, in particular for 800 and 600).
-/

namespace BevyTauri

/-- Readiness enum of the embedded engine, as returned by
`app.plugins_state()` (bevy `PluginsState`): plugins still being added or
readied, all ready, `finish` run, `cleanup` run. -/
inductive PluginsState
  | Adding
  | Ready
  | Finished
  | Cleaned
deriving DecidableEq

/-- Numeric position of a readiness state along the lifecycle chain
Adding, Ready, Finished, Cleaned. -/
def state_rank : PluginsState → Nat
  | .Adding => 0
  | .Ready => 1
  | .Finished => 2
  | .Cleaned => 3

/-- Engine window component; only the field touched by the bridge is kept:
`window.resolution`, a pair of floating-point pixel sizes. -/
structure WindowModel where
  resolution : ℚ × ℚ
deriving DecidableEq

/-- Engine-level `WindowResized` event: entity identity plus the new
width and height as floating-point pixel values. -/
structure WindowResizedEvent where
  window : Nat
  width : ℚ
  height : ℚ
deriving DecidableEq

/-- Host window events reaching `handle_window_event`:
`tauri::WindowEvent::Resized`, `tauri::WindowEvent::ScaleFactorChanged`
(with its payload), and the catch-all arm. -/
inductive WindowEvent
  | resized (width height : Nat)
  | scaleFactorChanged (scaleFactor : ℚ) (newWidth newHeight : Nat)
  | otherKind
deriving DecidableEq

/-- Host run-loop events reaching `handle_tauri_events`
(`tauri::RunEvent`). -/
inductive RunEvent
  | ready
  | exitRequested
  | windowEvent (ev : WindowEvent)
  | mainEventsCleared
  | otherKind
deriving DecidableEq

/-- State of the embedded engine (`bevy::app::App`) visible to the bridge:
the readiness enum, install / lifecycle counters (how often the custom
renderer plugin, the rendering-dependent plugin group, `finish` and
`cleanup` ran), the update counter, the window entities with their
resolution component, the queued `WindowResized` events, and a log of
every readiness-state change in order. -/
structure AppModel where
  pluginsState : PluginsState
  rendererInstalls : Nat
  engineInstalls : Nat
  finishCalls : Nat
  cleanupCalls : Nat
  updates : Nat
  windows : List (Nat × WindowModel)
  resizeEvents : List WindowResizedEvent
  stateLog : List PluginsState
deriving DecidableEq

/-- Host-side facts the ready handler depends on: whether
`get_webview_window("main")` finds the primary window and whether
`instance.create_surface(...)` succeeds. -/
structure HostModel where
  hasMainWindow : Bool
  surfaceOk : Bool
deriving DecidableEq

/-- Engine state as built by `setup_bevy` before the runner starts: one
primary window entity (bevy `Window::default()` is 1280 x 720), plugins
still readying, nothing installed, updated, emitted or logged yet. -/
def app_init : AppModel :=
  { pluginsState := .Adding
    rendererInstalls := 0
    engineInstalls := 0
    finishCalls := 0
    cleanupCalls := 0
    updates := 0
    windows := [(0, { resolution := (1280, 720) })]
    resizeEvents := []
    stateLog := [] }

/-- Modelled `u32 as f32` conversion of pixel sizes: exact embedding of a
natural number into the rationals. -/
def u32_as_f32 (n : Nat) : ℚ := (n : ℚ)

/-- Record a change of the readiness enum, appending it to the state log. -/
def set_plugins_state (s : PluginsState) (app : AppModel) : AppModel :=
  { app with pluginsState := s, stateLog := app.stateLog ++ [s] }

/-- Effect of `app.add_plugins(CustomRendererPlugin { .. })` followed by
`app.add_plugins((SpritePlugin, .., DefaultPickingPlugins))` (bevy.rs
lines 186-202): both surface-dependent installs happen, and the engine is
back to readying the freshly added plugins. -/
def add_deferred_plugins (app : AppModel) : AppModel :=
  set_plugins_state .Adding
    { app with
      rendererInstalls := app.rendererInstalls + 1
      engineInstalls := app.engineInstalls + 1 }

/-- Effect of the busy-poll `while app.plugins_state() != Ready { tick }`
(bevy.rs lines 205-207): it returns exactly when the readiness enum has
become `Ready`. -/
def poll_until_ready (app : AppModel) : AppModel :=
  set_plugins_state .Ready app

/-- Effect of `app.finish()` (bevy.rs line 209). -/
def app_finish (app : AppModel) : AppModel :=
  set_plugins_state .Finished { app with finishCalls := app.finishCalls + 1 }

/-- Effect of `app.cleanup()` (bevy.rs line 210). -/
def app_cleanup (app : AppModel) : AppModel :=
  set_plugins_state .Cleaned { app with cleanupCalls := app.cleanupCalls + 1 }

/-- Effect of `app.update()` (bevy.rs line 144): one discrete engine step. -/
def app_update (app : AppModel) : AppModel :=
  { app with updates := app.updates + 1 }

/-- Install sequence of the ready handler (bevy.rs lines 186-210): add the
deferred plugins, busy-poll to `Ready`, `finish`, `cleanup`. -/
def ready_install (app : AppModel) : AppModel :=
  app_cleanup (app_finish (poll_until_ready (add_deferred_plugins app)))

/-- Embedding of `handle_ready_event` (bevy.rs lines 183-212).  When the
readiness enum is not yet `Cleaned`: resolve the primary window
(`.unwrap()` aborts when it is missing), build the custom renderer plugin
(`create_surface(..).unwrap()` aborts when surface creation fails), then
run the install sequence.  When already `Cleaned` the event is a no-op. -/
def handle_ready_event (host : HostModel) (app : AppModel) :
    Except String AppModel :=
  if app.pluginsState ≠ .Cleaned then
    if !host.hasMainWindow then
      .error "get_webview_window(main) returned None"
    else if !host.surfaceOk then
      .error "create_surface failed"
    else
      .ok (ready_install app)
  else
    .ok app

/-- Embedding of `handle_window_resize` (bevy.rs lines 226-242): overwrite
the resolution of every window entity and send one `WindowResized` event
per window entity, carrying the entity and the converted dimensions. -/
def handle_window_resize (width height : Nat) (app : AppModel) : AppModel :=
  { app with
    windows := app.windows.map fun p =>
      (p.1, { resolution := (u32_as_f32 width, u32_as_f32 height) })
    resizeEvents := app.resizeEvents ++ app.windows.map fun p =>
      { window := p.1, width := u32_as_f32 width, height := u32_as_f32 height } }

/-- Embedding of `handle_window_event` (bevy.rs lines 214-224): resizes are
translated, scale-factor changes and every other kind fall through with no
effect. -/
def handle_window_event (event : WindowEvent) (app : AppModel) : AppModel :=
  match event with
  | .resized w h => handle_window_resize w h app
  | .scaleFactorChanged _ _ _ => app
  | .otherKind => app

/-- Embedding of `handle_tauri_events` (bevy.rs lines 167-181).  The
task-pool tick at the top has no observable effect on the modelled state.
Dispatch: ready events go to `handle_ready_event`, window events to
`handle_window_event`, everything else is ignored. -/
def handle_tauri_events (host : HostModel) (event : RunEvent) (app : AppModel) :
    Except String AppModel :=
  match event with
  | .ready => handle_ready_event host app
  | .exitRequested => .ok app
  | .windowEvent ev => .ok (handle_window_event ev app)
  | .mainEventsCleared => .ok app
  | .otherKind => .ok app

/-- Deliver one event batch, as `tauri_app.run_iteration` does (bevy.rs
lines 134-136): the callback runs once per event, in order, and an abort
inside the callback stops the process. -/
def run_iteration_events (host : HostModel) :
    List RunEvent → AppModel → Except String AppModel
  | [], app => .ok app
  | ev :: rest, app =>
    match handle_tauri_events host ev app with
    | .error e => .error e
    | .ok app' => run_iteration_events host rest app'

/-- Frame budget `Duration::from_secs_f64(1.0 / 60.0)` (bevy.rs line 126),
in seconds. -/
def target_frame_duration : ℚ := 1 / 60

/-- Sleep performed at bevy.rs lines 146-148: the positive remainder of
the frame budget, and nothing when the iteration overran. -/
def sleep_amount (frame_duration : ℚ) : ℚ :=
  if frame_duration < target_frame_duration then
    target_frame_duration - frame_duration
  else 0

/-- Pacer state of the driver loop: the per-second iteration counter
`frame_count`, the wall time accumulated since `last_second` was reset,
and the published metric `AVERAGE_FRAME_RATE` (initialised to 0 at
process start, bevy.rs line 116). -/
structure PacerState where
  frame_count : Nat
  since_last_second : ℚ
  published : Nat
deriving DecidableEq

/-- Pacer state at loop entry (bevy.rs lines 116, 127-128). -/
def pacer_init : PacerState := { frame_count := 0, since_last_second := 0, published := 0 }

/-- Observable actions of one driver iteration, used to state ordering
properties: an engine update step, a frame-counter increment, a publish of
the metric, and the host cleanup on exit. -/
inductive Action
  | update
  | count
  | publish (n : Nat)
  | hostCleanup
deriving DecidableEq

/-- Pacer tail of one loop iteration (bevy.rs lines 145-156), fed with the
measured work duration: sleep out the remaining budget, increment
`frame_count`, and when a full second has elapsed publish the count and
reset both the counter and `last_second`. -/
def pacer_step (work : ℚ) (p : PacerState) : PacerState × List Action :=
  let sleep := sleep_amount work
  let s := p.since_last_second + (work + sleep)
  let fc := p.frame_count + 1
  if 1 ≤ s then
    ({ frame_count := 0, since_last_second := 0, published := fc },
      [.count, .publish fc])
  else
    ({ frame_count := fc, since_last_second := s, published := p.published },
      [.count])

/-- Run the pacer over a synthetic sequence of per-iteration work
durations. -/
def run_pacer : List ℚ → PacerState → PacerState
  | [], p => p
  | w :: ws, p => run_pacer ws (pacer_step w p).1

/-- Total wall time of a synthetic sequence of iterations: work plus the
sleep the pacer adds to each. -/
def pacer_total_time : List ℚ → ℚ
  | [] => 0
  | w :: ws => (w + sleep_amount w) + pacer_total_time ws

/-- Embedding of `get_average_frame_rate` (bevy.rs lines 162-165): read
the published metric. -/
def get_average_frame_rate (p : PacerState) : Nat := p.published

/-- One host loop iteration as the driver observes it: the events the
pump delivers, whether `webview_windows()` is empty after the pump, and
the measured work duration of the iteration. -/
structure Iteration where
  events : List RunEvent
  windows_empty : Bool
  work : ℚ
deriving DecidableEq

/-- Exit code of the runner (`bevy::app::AppExit`). -/
inductive AppExit
  | Success
  | Error
deriving DecidableEq

/-- One pass of the driver loop body (bevy.rs lines 130-157): pump the
host events; if the host now has no open windows, run
`cleanup_before_exit` and break; otherwise update the engine once and run
the pacer tail.  Returns the new state, the emitted actions and whether
the loop broke. -/
def driver_step (host : HostModel) (it : Iteration) (app : AppModel)
    (pacer : PacerState) :
    Except String (AppModel × PacerState × List Action × Bool) :=
  match run_iteration_events host it.events app with
  | .error e => .error e
  | .ok app' =>
    if it.windows_empty then
      .ok (app', pacer, [.hostCleanup], true)
    else
      let stepped := pacer_step it.work pacer
      .ok (app_update app', stepped.1, .update :: stepped.2, false)

/-- Outcome of a driver run: the loop broke at the zero-window check and
returned an exit code (bevy.rs line 159), the supplied iteration trace ran
out with the loop still going, or an unwrap aborted the process. -/
inductive RunOutcome
  | finished (exit : AppExit) (app : AppModel) (pacer : PacerState)
      (log : List Action) (iters_used : Nat)
  | outOfIterations (app : AppModel) (pacer : PacerState)
      (log : List Action) (iters_used : Nat)
  | panicked (msg : String)
deriving DecidableEq

/-- Driver loop of `run_tauri_app` over a finite iteration trace. -/
def run_tauri_app_loop (host : HostModel) :
    List Iteration → AppModel → PacerState → List Action → Nat → RunOutcome
  | [], app, pacer, log, used => .outOfIterations app pacer log used
  | it :: rest, app, pacer, log, used =>
    match driver_step host it app pacer with
    | .error e => .panicked e
    | .ok (app', pacer', acts, broke) =>
      if broke then
        .finished .Success app' pacer' (log ++ acts) (used + 1)
      else
        run_tauri_app_loop host rest app' pacer' (log ++ acts) (used + 1)

/-- Embedding of `run_tauri_app` (bevy.rs lines 118-160): run the loop
from the freshly initialised pacer; the only way the loop returns is the
zero-window break, and then the result is `AppExit::Success`. -/
def run_tauri_app (host : HostModel) (iters : List Iteration) (app : AppModel) :
    RunOutcome :=
  run_tauri_app_loop host iters app pacer_init [] 0

/-- Action log of a run (empty when the process aborted). -/
def run_log : RunOutcome → List Action
  | .finished _ _ _ l _ => l
  | .outOfIterations _ _ l _ => l
  | .panicked _ => []

/-- Readiness enum of the engine at the end of a run, when the process
did not abort. -/
def outcome_plugins_state : RunOutcome → Option PluginsState
  | .finished _ app _ _ _ => some app.pluginsState
  | .outOfIterations app _ _ _ => some app.pluginsState
  | .panicked _ => none

/-- Whether the one-shot setup in the ready handler aborted the process. -/
def setup_aborted : Except String AppModel → Bool
  | .error _ => true
  | .ok _ => false

/-- Host in which the primary window exists and surface creation
succeeds. -/
def host_ok : HostModel := { hasMainWindow := true, surfaceOk := true }

/-- Iteration that delivers the host ready event with windows still open
and no measured work. -/
def iter_ready : Iteration := { events := [.ready], windows_empty := false, work := 0 }

/-- Iteration in which the host reports zero open windows and delivers no
events. -/
def iter_empty : Iteration := { events := [], windows_empty := true, work := 0 }

/-- Steady-state iteration: no events, windows open, no measured work. -/
def iter_plain : Iteration := { events := [], windows_empty := false, work := 0 }

/-- Host whose primary window lookup fails. -/
def host_no_window : HostModel := { hasMainWindow := false, surfaceOk := true }

/-- Engine state whose readiness enum is already `Cleaned`. -/
def app_cleaned_example : AppModel := { app_init with pluginsState := .Cleaned }

/-- Install bound respected throughout event handling: at most one install
of each surface-dependent subsystem, and none at all before the readiness
enum reaches `Cleaned`. -/
def install_inv (app : AppModel) : Prop :=
  app.rendererInstalls ≤ 1 ∧ app.engineInstalls ≤ 1 ∧
    (app.pluginsState ≠ .Cleaned → app.rendererInstalls = 0 ∧ app.engineInstalls = 0)

/-- Install bound read off an event-handling result: trivial when the
process aborted. -/
def installs_at_most_one : Except String AppModel → Prop
  | .ok a => a.rendererInstalls ≤ 1 ∧ a.engineInstalls ≤ 1
  | .error _ => True

/-- Counter actions never outnumber update actions in any prefix of an
action log: every frame-counter increment is covered by a completed
engine update that came before it. -/
def counts_le_updates (l : List Action) : Prop :=
  ∀ p q : List Action, l = p ++ q → p.count Action.count ≤ p.count Action.update

/-! ## Lemmas -/

@[simp]
lemma ready_install_pluginsState (app : AppModel) :
    (ready_install app).pluginsState = .Cleaned := rfl

@[simp]
lemma ready_install_rendererInstalls (app : AppModel) :
    (ready_install app).rendererInstalls = app.rendererInstalls + 1 := rfl

@[simp]
lemma ready_install_engineInstalls (app : AppModel) :
    (ready_install app).engineInstalls = app.engineInstalls + 1 := rfl

@[simp]
lemma ready_install_updates (app : AppModel) :
    (ready_install app).updates = app.updates := rfl

@[simp]
lemma ready_install_finishCalls (app : AppModel) :
    (ready_install app).finishCalls = app.finishCalls + 1 := rfl

@[simp]
lemma ready_install_cleanupCalls (app : AppModel) :
    (ready_install app).cleanupCalls = app.cleanupCalls + 1 := rfl

lemma ready_install_stateLog (app : AppModel) :
    (ready_install app).stateLog = app.stateLog ++
      [PluginsState.Adding, PluginsState.Ready, PluginsState.Finished,
        PluginsState.Cleaned] := by
  simp [ready_install, app_cleanup, app_finish, poll_until_ready,
    add_deferred_plugins, set_plugins_state]

lemma state_rank_le_three (s : PluginsState) : state_rank s ≤ 3 := by
  cases s <;> simp [state_rank]

lemma handle_ready_event_ok (host : HostModel) (app app' : AppModel)
    (h : handle_ready_event host app = .ok app') :
    (app.pluginsState = .Cleaned ∧ app' = app) ∨
      (app.pluginsState ≠ .Cleaned ∧ host.hasMainWindow = true ∧
        host.surfaceOk = true ∧ app' = ready_install app) := by
  by_cases hc : app.pluginsState = .Cleaned
  · simp [handle_ready_event, hc] at h
    exact .inl ⟨hc, h.symm⟩
  · cases hw : host.hasMainWindow <;> cases hs : host.surfaceOk <;>
      simp [handle_ready_event, hc, hw, hs] at h
    exact .inr ⟨hc, rfl, rfl, h.symm⟩

lemma handle_window_event_readiness (ev : WindowEvent) (app : AppModel) :
    (handle_window_event ev app).pluginsState = app.pluginsState ∧
    (handle_window_event ev app).rendererInstalls = app.rendererInstalls ∧
    (handle_window_event ev app).engineInstalls = app.engineInstalls ∧
    (handle_window_event ev app).updates = app.updates ∧
    (handle_window_event ev app).finishCalls = app.finishCalls ∧
    (handle_window_event ev app).cleanupCalls = app.cleanupCalls := by
  cases ev <;> simp [handle_window_event, handle_window_resize]

lemma handle_tauri_events_ok (host : HostModel) (ev : RunEvent)
    (app app' : AppModel) (h : handle_tauri_events host ev app = .ok app') :
    (ev = .ready ∧ handle_ready_event host app = .ok app') ∨
      (∃ wev, ev = .windowEvent wev ∧ app' = handle_window_event wev app) ∨
      app' = app := by
  cases ev <;> simp [handle_tauri_events] at h
  case ready => exact .inl ⟨rfl, h⟩
  case exitRequested => exact .inr (.inr h.symm)
  case windowEvent wev => exact .inr (.inl ⟨wev, rfl, h.symm⟩)
  case mainEventsCleared => exact .inr (.inr h.symm)
  case otherKind => exact .inr (.inr h.symm)

lemma handle_tauri_events_facts (host : HostModel) (ev : RunEvent)
    (app app' : AppModel) (h : handle_tauri_events host ev app = .ok app') :
    (install_inv app → install_inv app') ∧
    app'.updates = app.updates ∧
    state_rank app.pluginsState ≤ state_rank app'.pluginsState ∧
    (app.pluginsState = .Cleaned → app'.pluginsState = .Cleaned) := by
  rcases handle_tauri_events_ok host ev app app' h with
    ⟨_, hre⟩ | ⟨wev, _, rfl⟩ | rfl
  · rcases handle_ready_event_ok host app app' hre with
      ⟨hc, rfl⟩ | ⟨hc, _, _, rfl⟩
    · exact ⟨id, rfl, le_refl _, fun _ => hc⟩
    · refine ⟨fun hinv => ?_, ready_install_updates app, ?_, fun hcl => ?_⟩
      · obtain ⟨_, _, hzero⟩ := hinv
        obtain ⟨hr0, he0⟩ := hzero hc
        exact ⟨by simp [hr0], by simp [he0], fun hne => absurd rfl hne⟩
      · simpa using state_rank_le_three app.pluginsState
      · exact absurd hcl hc
  · obtain ⟨h1, h2, h3, h4, h5, h6⟩ := handle_window_event_readiness wev app
    refine ⟨fun hinv => ?_, h4, by rw [h1], fun hcl => by rw [h1]; exact hcl⟩
    obtain ⟨a1, a2, a3⟩ := hinv
    exact ⟨by rw [h2]; exact a1, by rw [h3]; exact a2,
      fun hne => by rw [h2, h3]; exact a3 (by rw [h1] at hne; exact hne)⟩
  · exact ⟨id, rfl, le_refl _, id⟩

lemma run_iteration_events_facts (host : HostModel) :
    ∀ (evs : List RunEvent) (app app' : AppModel),
      run_iteration_events host evs app = .ok app' →
      (install_inv app → install_inv app') ∧
      app'.updates = app.updates ∧
      state_rank app.pluginsState ≤ state_rank app'.pluginsState ∧
      (app.pluginsState = .Cleaned → app'.pluginsState = .Cleaned) := by
  intro evs
  induction evs with
  | nil =>
    intro app app' h
    simp [run_iteration_events] at h
    subst h
    exact ⟨id, rfl, le_refl _, id⟩
  | cons ev rest ih =>
    intro app app' h
    unfold run_iteration_events at h
    cases he : handle_tauri_events host ev app with
    | error e => rw [he] at h; cases h
    | ok appm =>
      rw [he] at h
      obtain ⟨f1, f2, f3, f4⟩ := handle_tauri_events_facts host ev app appm he
      obtain ⟨g1, g2, g3, g4⟩ := ih appm app' h
      exact ⟨fun hinv => g1 (f1 hinv), by rw [g2, f2], le_trans f3 g3,
        fun hcl => g4 (f4 hcl)⟩

lemma install_inv_app_init : install_inv app_init := by
  refine ⟨?_, ?_, fun _ => ⟨rfl, rfl⟩⟩ <;> simp [app_init]

lemma sleep_amount_nonneg (d : ℚ) : 0 ≤ sleep_amount d := by
  unfold sleep_amount
  split
  · linarith
  · exact le_refl 0

lemma pacer_total_time_nonneg (works : List ℚ) (h : ∀ w ∈ works, 0 ≤ w) :
    0 ≤ pacer_total_time works := by
  induction works with
  | nil => simp [pacer_total_time]
  | cons w ws ih =>
    have hw : 0 ≤ w := h w (by simp)
    have hws : 0 ≤ pacer_total_time ws := ih fun x hx => h x (by simp [hx])
    have hs : 0 ≤ sleep_amount w := sleep_amount_nonneg w
    unfold pacer_total_time
    linarith

lemma pacer_step_no_publish (w : ℚ) (p : PacerState)
    (h : p.since_last_second + (w + sleep_amount w) < 1) :
    pacer_step w p =
      ({ frame_count := p.frame_count + 1,
         since_last_second := p.since_last_second + (w + sleep_amount w),
         published := p.published }, [Action.count]) := by
  unfold pacer_step
  simp only []
  rw [if_neg (by linarith)]

lemma run_pacer_published_zero :
    ∀ (works : List ℚ) (p : PacerState), (∀ w ∈ works, 0 ≤ w) →
      p.published = 0 → 0 ≤ p.since_last_second →
      p.since_last_second + pacer_total_time works < 1 →
      (run_pacer works p).published = 0 := by
  intro works
  induction works with
  | nil => intro p _ h0 _ _; simpa [run_pacer] using h0
  | cons w ws ih =>
    intro p hnn h0 hs hlt
    have hw : 0 ≤ w := hnn w (by simp)
    have hsw : 0 ≤ sleep_amount w := sleep_amount_nonneg w
    have hws : 0 ≤ pacer_total_time ws :=
      pacer_total_time_nonneg ws fun x hx => hnn x (by simp [hx])
    have htot : p.since_last_second + (w + sleep_amount w) + pacer_total_time ws < 1 := by
      have : pacer_total_time (w :: ws) =
          (w + sleep_amount w) + pacer_total_time ws := rfl
      linarith [hlt.trans_le (le_refl 1), this ▸ hlt]
    have hstep : p.since_last_second + (w + sleep_amount w) < 1 := by linarith
    rw [run_pacer, pacer_step_no_publish w p hstep]
    refine ih _ (fun x hx => hnn x (by simp [hx])) h0 ?_ ?_
    · show 0 ≤ p.since_last_second + (w + sleep_amount w)
      linarith
    · show p.since_last_second + (w + sleep_amount w) + pacer_total_time ws < 1
      linarith

lemma pacer_step_acts (w : ℚ) (p : PacerState) :
    (pacer_step w p).2 = [Action.count] ∨
      (pacer_step w p).2 = [Action.count, Action.publish (p.frame_count + 1)] := by
  by_cases h : 1 ≤ p.since_last_second + (w + sleep_amount w)
  · exact .inr (by simp [pacer_step, h])
  · exact .inl (by simp [pacer_step, h])

lemma driver_step_break (host : HostModel) (it : Iteration) (app : AppModel)
    (pacer : PacerState) (appE : AppModel) (hw : it.windows_empty = true)
    (he : run_iteration_events host it.events app = .ok appE) :
    driver_step host it app pacer = .ok (appE, pacer, [Action.hostCleanup], true) := by
  simp [driver_step, he, hw]

lemma driver_step_ok (host : HostModel) (it : Iteration) (app : AppModel)
    (pacer : PacerState) (app' : AppModel) (pacer' : PacerState)
    (acts : List Action) (broke : Bool)
    (h : driver_step host it app pacer = .ok (app', pacer', acts, broke)) :
    ∃ appE, run_iteration_events host it.events app = .ok appE ∧
      ((it.windows_empty = true ∧ broke = true ∧ app' = appE ∧ pacer' = pacer ∧
          acts = [Action.hostCleanup]) ∨
        (it.windows_empty = false ∧ broke = false ∧ app' = app_update appE ∧
          pacer' = (pacer_step it.work pacer).1 ∧
          acts = Action.update :: (pacer_step it.work pacer).2)) := by
  unfold driver_step at h
  cases he : run_iteration_events host it.events app with
  | error e => rw [he] at h; cases h
  | ok appE =>
    rw [he] at h
    refine ⟨appE, rfl, ?_⟩
    cases hw : it.windows_empty
    · rw [hw] at h
      simp at h
      exact .inr ⟨rfl, h.2.2.2, h.1.symm, h.2.1.symm, h.2.2.1.symm⟩
    · rw [hw] at h
      simp at h
      exact .inl ⟨rfl, h.2.2.2, h.1.symm, h.2.1.symm, h.2.2.1.symm⟩

lemma counts_le_updates_nil : counts_le_updates [] := by
  intro p q h
  rcases List.append_eq_nil.mp h.symm with ⟨rfl, rfl⟩
  simp

lemma counts_le_updates_chunk_break : counts_le_updates [Action.hostCleanup] := by
  intro p q h
  rcases p with _ | ⟨a, p⟩
  · simp
  · rw [List.cons_append] at h
    have ha : Action.hostCleanup = a := List.head_eq_of_cons_eq h
    have h2 := List.tail_eq_of_cons_eq h
    rcases List.append_eq_nil.mp h2.symm with ⟨rfl, rfl⟩
    subst ha
    simp [List.count_cons]

lemma counts_le_updates_chunk_iter (rest : List Action)
    (hrest : rest = [] ∨ ∃ n, rest = [Action.publish n]) :
    counts_le_updates (Action.update :: Action.count :: rest) := by
  intro p q h
  rcases p with _ | ⟨a, _ | ⟨b, p⟩⟩
  · simp
  · rw [List.cons_append] at h
    have ha : a = Action.update := (List.head_eq_of_cons_eq h.symm)
    subst ha
    simp [List.count_cons]
  · rw [List.cons_append, List.cons_append] at h
    have ha : Action.update = a := List.head_eq_of_cons_eq h
    have h' := List.tail_eq_of_cons_eq h
    have hb : Action.count = b := List.head_eq_of_cons_eq h'
    have h'' := List.tail_eq_of_cons_eq h'
    subst ha
    subst hb
    rcases hrest with rfl | ⟨n, rfl⟩
    · rcases List.append_eq_nil.mp h''.symm with ⟨rfl, rfl⟩
      simp [List.count_cons]
    · rcases p with _ | ⟨c, p⟩
      · simp [List.count_cons]
      · have hc : Action.publish n = c := List.head_eq_of_cons_eq h''
        have h3 := List.tail_eq_of_cons_eq h''
        rcases List.append_eq_nil.mp h3.symm with ⟨rfl, rfl⟩
        subst hc
        simp [List.count_cons]

lemma chunk_count_eq (rest : List Action)
    (hrest : rest = [] ∨ ∃ n, rest = [Action.publish n]) :
    (Action.update :: Action.count :: rest).count Action.count =
      (Action.update :: Action.count :: rest).count Action.update := by
  rcases hrest with rfl | ⟨n, rfl⟩ <;> simp [List.count_cons]

lemma counts_le_updates_append (l1 l2 : List Action)
    (h1 : counts_le_updates l1)
    (e1 : l1.count Action.count = l1.count Action.update)
    (h2 : counts_le_updates l2) : counts_le_updates (l1 ++ l2) := by
  intro p q h
  rcases List.append_eq_append_iff.mp h.symm with ⟨a, ha1, ha2⟩ | ⟨c, hc1, hc2⟩
  · exact h1 p a ha1
  · subst hc1
    have hla := h2 c q hc2
    simp only [List.count_append, e1]
    omega

lemma run_loop_log_counts (host : HostModel) (iters : List Iteration) :
    ∀ (app : AppModel) (pacer : PacerState) (log : List Action) (used : Nat),
      counts_le_updates log →
      log.count Action.count = log.count Action.update →
      counts_le_updates (run_log (run_tauri_app_loop host iters app pacer log used)) ∧
        (run_log (run_tauri_app_loop host iters app pacer log used)).count Action.count =
          (run_log (run_tauri_app_loop host iters app pacer log used)).count Action.update := by
  induction iters with
  | nil =>
    intro app pacer log used h1 h2
    simpa [run_tauri_app_loop, run_log] using ⟨h1, h2⟩
  | cons it rest ih =>
    intro app pacer log used h1 h2
    unfold run_tauri_app_loop
    cases hds : driver_step host it app pacer with
    | error e =>
      constructor
      · exact counts_le_updates_nil
      · rfl
    | ok r =>
      obtain ⟨app', pacer', acts, broke⟩ := r
      obtain ⟨appE, hAppE, hcases⟩ := driver_step_ok host it app pacer app' pacer' acts broke hds
      rcases hcases with ⟨hw, hbroke, _, _, hacts⟩ | ⟨hw, hbroke, _, _, hacts⟩
      · subst hbroke
        subst hacts
        have hchunk : counts_le_updates [Action.hostCleanup] := counts_le_updates_chunk_break
        have hcc : counts_le_updates (log ++ [Action.hostCleanup]) :=
          counts_le_updates_append log [Action.hostCleanup] h1 h2 hchunk
        simp only [if_pos rfl]
        refine ⟨by simpa [run_log] using hcc, ?_⟩
        simp [run_log, List.count_append, h2]
      · subst hbroke
        subst hacts
        rcases pacer_step_acts it.work pacer with hps | hps <;> rw [hps]
        · have hchunk := counts_le_updates_chunk_iter [] (.inl rfl)
          have heq := chunk_count_eq [] (.inl rfl)
          have hcc := counts_le_updates_append log _ h1 h2 hchunk
          have hceq : (log ++ [Action.update, Action.count]).count Action.count =
              (log ++ [Action.update, Action.count]).count Action.update := by
            simp [List.count_append, h2]
          simpa using ih app' pacer' (log ++ [Action.update, Action.count]) (used + 1) hcc hceq
        · have hchunk := counts_le_updates_chunk_iter [Action.publish (pacer.frame_count + 1)]
            (.inr ⟨pacer.frame_count + 1, rfl⟩)
          have hcc := counts_le_updates_append log _ h1 h2 hchunk
          have hceq : (log ++ [Action.update, Action.count,
              Action.publish (pacer.frame_count + 1)]).count Action.count =
              (log ++ [Action.update, Action.count,
                Action.publish (pacer.frame_count + 1)]).count Action.update := by
            simp [List.count_append, h2]
          simpa using ih app' pacer'
            (log ++ [Action.update, Action.count, Action.publish (pacer.frame_count + 1)])
            (used + 1) hcc hceq

lemma run_loop_finished (host : HostModel) (iters : List Iteration) :
    ∀ (app : AppModel) (pacer : PacerState) (log : List Action) (used : Nat)
      (e : AppExit) (app' : AppModel) (pacer' : PacerState) (log' : List Action)
      (used' : Nat),
      run_tauri_app_loop host iters app pacer log used =
        .finished e app' pacer' log' used' →
      log.count Action.hostCleanup = 0 →
      e = .Success ∧ log'.count Action.hostCleanup = 1 ∧
        log'.getLast? = some Action.hostCleanup := by
  induction iters with
  | nil =>
    intro app pacer log used e app' pacer' log' used' h _
    simp [run_tauri_app_loop] at h
  | cons it rest ih =>
    intro app pacer log used e app' pacer' log' used' h h0
    unfold run_tauri_app_loop at h
    cases hds : driver_step host it app pacer with
    | error e2 => rw [hds] at h; cases h
    | ok r =>
      obtain ⟨appm, pacerm, acts, broke⟩ := r
      rw [hds] at h
      obtain ⟨appE, hAppE, hcases⟩ :=
        driver_step_ok host it app pacer appm pacerm acts broke hds
      rcases hcases with ⟨hw, hbroke, _, _, hacts⟩ | ⟨hw, hbroke, _, _, hacts⟩
      · subst hbroke
        subst hacts
        simp at h
        obtain ⟨he, _, _, hlog, _⟩ := h
        subst hlog
        refine ⟨he.symm, ?_, ?_⟩
        · simp [List.count_append, h0]
        · exact List.getLast?_concat _
      · subst hbroke
        subst hacts
        simp at h
        rcases pacer_step_acts it.work pacer with hps | hps <;> rw [hps] at h
        · refine ih appm pacerm (log ++ Action.update :: [Action.count]) (used + 1)
            e app' pacer' log' used' h ?_
          simp [List.count_append, List.count_cons, h0]
        · refine ih appm pacerm
            (log ++ Action.update :: [Action.count, Action.publish (pacer.frame_count + 1)])
            (used + 1) e app' pacer' log' used' h ?_
          simp [List.count_append, List.count_cons, h0]

/-! ## Claims -/

/-- C1: for every sequence of host events delivered to the event handler,
including arbitrarily many repeated ready events, the custom renderer
plugin and the rendering-dependent engine plugins are installed at most
once; a ready event arriving when the readiness state is already
`Cleaned` is a no-op, and any successful ready handling from a
not-yet-`Cleaned` state leaves the state `Cleaned`, so no later ready
event can install them again. -/
theorem c1_install_at_most_once (host : HostModel) (evs : List RunEvent) :
    installs_at_most_one (run_iteration_events host evs app_init) ∧
      (∀ app : AppModel, app.pluginsState = .Cleaned →
        handle_ready_event host app = .ok app) ∧
      (∀ app app' : AppModel, app.pluginsState ≠ .Cleaned →
        handle_ready_event host app = .ok app' → app'.pluginsState = .Cleaned) := by
  refine ⟨?_, ?_, ?_⟩
  · cases hr : run_iteration_events host evs app_init with
    | error e => simp [installs_at_most_one]
    | ok app' =>
      obtain ⟨hinv, _, _, _⟩ := run_iteration_events_facts host evs app_init app' hr
      obtain ⟨a1, a2, _⟩ := hinv install_inv_app_init
      exact ⟨a1, a2⟩
  · intro app hcl
    simp [handle_ready_event, hcl]
  · intro app app' hne h
    rcases handle_ready_event_ok host app app' h with ⟨hcl, _⟩ | ⟨_, _, _, rfl⟩
    · exact absurd hcl hne
    · rfl

/-- C1 witness: two consecutive ready events from the initial state install
at most once, and a ready event on an already-`Cleaned` state is a no-op. -/
theorem c1_install_at_most_once_witness :
    installs_at_most_one
        (run_iteration_events host_ok [RunEvent.ready, RunEvent.ready] app_init) ∧
      handle_ready_event host_ok app_cleaned_example = .ok app_cleaned_example :=
  ⟨(c1_install_at_most_once host_ok [RunEvent.ready, RunEvent.ready]).1,
    (c1_install_at_most_once host_ok []).2.1 app_cleaned_example rfl⟩

/-- C2 counterexample: a single driver iteration that delivers the host
ready event, while the host still reports open windows, already leaves the
readiness state `Cleaned`; the claim says the transition to `Cleaned`
happens when the host reports zero open windows, and that `Ready` is the
terminal steady-state, so it is false on this input. -/
theorem c2_counterexample :
    outcome_plugins_state (run_tauri_app host_ok [iter_ready] app_init) =
        some PluginsState.Cleaned ∧
      iter_ready.windows_empty = false := by
  constructor
  · norm_num [run_tauri_app, run_tauri_app_loop, driver_step, run_iteration_events,
      handle_tauri_events, handle_ready_event, ready_install, app_cleanup, app_finish,
      poll_until_ready, add_deferred_plugins, set_plugins_state, iter_ready, host_ok,
      app_init, pacer_step, sleep_amount, target_frame_duration, pacer_init,
      outcome_plugins_state]
    decide
  · rfl

/-- C2 (amended): event handling never regresses the readiness state along
Adding, Ready, Finished, Cleaned; a successful first ready handling passes
through exactly the states Adding, Ready, Finished, Cleaned in that order
and ends `Cleaned`; thereafter `Cleaned` is terminal under every event;
and the zero-open-windows branch of the driver runs host cleanup and
breaks without changing the engine state (the readiness state is not
moved to `Cleaned` there). -/
theorem c2_readiness_monotone_amended :
    (∀ (host : HostModel) (ev : RunEvent) (app app' : AppModel),
        handle_tauri_events host ev app = .ok app' →
        state_rank app.pluginsState ≤ state_rank app'.pluginsState) ∧
      (∀ (host : HostModel) (app : AppModel), app.pluginsState ≠ .Cleaned →
        host.hasMainWindow = true → host.surfaceOk = true →
        ∃ app', handle_ready_event host app = .ok app' ∧
          app'.pluginsState = .Cleaned ∧
          app'.stateLog = app.stateLog ++
            [PluginsState.Adding, PluginsState.Ready, PluginsState.Finished,
              PluginsState.Cleaned]) ∧
      (∀ (host : HostModel) (ev : RunEvent) (app app' : AppModel),
        app.pluginsState = .Cleaned → handle_tauri_events host ev app = .ok app' →
        app'.pluginsState = .Cleaned) ∧
      (∀ (host : HostModel) (it : Iteration) (app : AppModel) (pacer : PacerState)
        (appE : AppModel),
        it.windows_empty = true → run_iteration_events host it.events app = .ok appE →
        driver_step host it app pacer = .ok (appE, pacer, [Action.hostCleanup], true)) := by
  refine ⟨?_, ?_, ?_, ?_⟩
  · intro host ev app app' h
    exact (handle_tauri_events_facts host ev app app' h).2.2.1
  · intro host app hne hw hs
    refine ⟨ready_install app, ?_, rfl, ready_install_stateLog app⟩
    simp [handle_ready_event, hne, hw, hs]
  · intro host ev app app' hcl h
    exact (handle_tauri_events_facts host ev app app' h).2.2.2 hcl
  · intro host it app pacer appE hw he
    exact driver_step_break host it app pacer appE hw he

/-- C2 witness: the first ready handling from the initial state walks the
chain Adding, Ready, Finished, Cleaned, and the zero-window break leaves
the state untouched. -/
theorem c2_readiness_monotone_amended_witness :
    (∃ app', handle_ready_event host_ok app_init = .ok app' ∧
        app'.pluginsState = .Cleaned ∧
        app'.stateLog = app_init.stateLog ++
          [PluginsState.Adding, PluginsState.Ready, PluginsState.Finished,
            PluginsState.Cleaned]) ∧
      driver_step host_ok iter_empty app_init pacer_init =
        .ok (app_init, pacer_init, [Action.hostCleanup], true) :=
  ⟨c2_readiness_monotone_amended.2.1 host_ok app_init (by decide) rfl rfl,
    c2_readiness_monotone_amended.2.2.2 host_ok iter_empty app_init pacer_init
      app_init rfl rfl⟩

/-- C3: when the host reports zero open windows right after the first
event-pump iteration, the driver invokes host cleanup and returns
immediately (only that one iteration runs, the emitted actions are just
the host cleanup) and the engine update step is never invoked. -/
theorem c3_first_iteration_empty (host : HostModel) (it : Iteration)
    (rest : List Iteration) (appE : AppModel)
    (hw : it.windows_empty = true)
    (he : run_iteration_events host it.events app_init = .ok appE) :
    run_tauri_app host (it :: rest) app_init =
        .finished .Success appE pacer_init [Action.hostCleanup] 1 ∧
      appE.updates = 0 := by
  constructor
  · unfold run_tauri_app run_tauri_app_loop
    rw [driver_step_break host it app_init pacer_init appE hw he]
    simp
  · have := (run_iteration_events_facts host it.events app_init appE he).2.1
    simpa [app_init] using this

/-- C3 witness: a run whose first iteration reports zero open windows and
delivers no events cleans up the host immediately with no update. -/
theorem c3_first_iteration_empty_witness :
    run_tauri_app host_ok [iter_empty] app_init =
        .finished .Success app_init pacer_init [Action.hostCleanup] 1 ∧
      app_init.updates = 0 :=
  c3_first_iteration_empty host_ok iter_empty [] app_init rfl rfl

/-- C4 counterexample: in a run whose first iteration reports zero open
windows, the driver performs host teardown and returns success, yet the
engine lifecycle hooks `finish` and `cleanup` were never invoked, so the
claim that engine teardown is performed before host teardown whenever the
host reports no remaining windows is false on this input. -/
theorem c4_counterexample :
    run_tauri_app host_ok [iter_empty] app_init =
        .finished .Success app_init pacer_init [Action.hostCleanup] 1 ∧
      app_init.cleanupCalls = 0 ∧ app_init.finishCalls = 0 := by
  refine ⟨?_, rfl, rfl⟩
  unfold run_tauri_app run_tauri_app_loop
  rw [driver_step_break host_ok iter_empty app_init pacer_init app_init rfl rfl]
  simp

/-- C4 (amended): whenever the driver loop terminates because the host
reports no remaining open windows, the run ends with exactly one host
teardown as its final action and the exit code is unconditionally
`Success` (the exit code does not encode failures; fatal setup errors
abort instead); the zero-window branch itself invokes no engine teardown:
it returns the engine state exactly as the event handling left it,
untouched. -/
theorem c4_shutdown_amended :
    (∀ (host : HostModel) (iters : List Iteration) (app app' : AppModel)
        (e : AppExit) (pacer' : PacerState) (log : List Action) (used : Nat),
        run_tauri_app host iters app = .finished e app' pacer' log used →
        e = .Success ∧ log.count Action.hostCleanup = 1 ∧
          log.getLast? = some Action.hostCleanup) ∧
      (∀ (host : HostModel) (it : Iteration) (app appE : AppModel)
        (pacer : PacerState),
        it.windows_empty = true →
        run_iteration_events host it.events app = .ok appE →
        driver_step host it app pacer =
          .ok (appE, pacer, [Action.hostCleanup], true)) := by
  constructor
  · intro host iters app app' e pacer' log used h
    exact run_loop_finished host iters app pacer_init [] 0 e app' pacer' log used h rfl
  · intro host it app appE pacer hw he
    exact driver_step_break host it app pacer appE hw he

/-- C4 witness: the concrete zero-window run returns `Success`, with the
host teardown as its unique and final action. -/
theorem c4_shutdown_amended_witness :
    AppExit.Success = AppExit.Success ∧
      [Action.hostCleanup].count Action.hostCleanup = 1 ∧
      [Action.hostCleanup].getLast? = some Action.hostCleanup :=
  c4_shutdown_amended.1 host_ok [iter_empty] app_init app_init .Success pacer_init
    [Action.hostCleanup] 1 (by
      unfold run_tauri_app run_tauri_app_loop
      rw [driver_step_break host_ok iter_empty app_init pacer_init app_init rfl rfl]
      simp)

/-- C5: for every measured work duration, the pacer sleeps exactly the
target frame duration minus the work when the work ran under budget, and
sleeps exactly zero (never a negative duration) when the work met or
overran the budget. -/
theorem c5_frame_pacer_sleep (d : ℚ) :
    (d < target_frame_duration → sleep_amount d = target_frame_duration - d) ∧
      (target_frame_duration ≤ d → sleep_amount d = 0) ∧
      0 ≤ sleep_amount d := by
  refine ⟨?_, ?_, sleep_amount_nonneg d⟩
  · intro h
    simp [sleep_amount, h]
  · intro h
    simp [sleep_amount, not_lt.mpr h]

/-- C5 witness: an 1/120 s iteration sleeps the remaining 1/120 s, and a
1/30 s iteration (overrunning the 60 Hz budget) sleeps zero. -/
theorem c5_frame_pacer_sleep_witness :
    sleep_amount (1 / 120) = target_frame_duration - 1 / 120 ∧
      sleep_amount (1 / 30) = 0 :=
  ⟨(c5_frame_pacer_sleep (1 / 120)).1 (by norm_num [target_frame_duration]),
    (c5_frame_pacer_sleep (1 / 30)).2.1 (by norm_num [target_frame_duration])⟩

set_option maxRecDepth 8000 in
/-- C6: the frame-rate metric starts at 0; the accessor returns 0 as long
as less than one full second of iterations has accumulated; whenever a
full second elapses the count of iterations completed in that second is
published and the counter reset; and over the synthetic sequence of 60
iterations of exactly zero work the published metric equals 60. -/
theorem c6_frame_rate_metric :
    get_average_frame_rate pacer_init = 0 ∧
      (∀ works : List ℚ, (∀ w ∈ works, 0 ≤ w) → pacer_total_time works < 1 →
        get_average_frame_rate (run_pacer works pacer_init) = 0) ∧
      (∀ (w : ℚ) (p : PacerState),
        1 ≤ p.since_last_second + (w + sleep_amount w) →
        (pacer_step w p).1.published = p.frame_count + 1 ∧
          (pacer_step w p).1.frame_count = 0) ∧
      get_average_frame_rate (run_pacer (List.replicate 60 0) pacer_init) = 60 := by
  refine ⟨rfl, ?_, ?_, ?_⟩
  · intro works hnn hlt
    refine run_pacer_published_zero works pacer_init hnn rfl (le_refl _) ?_
    show (0 : ℚ) + pacer_total_time works < 1
    simpa using hlt
  · intro w p h
    constructor <;> simp [pacer_step, h]
  · norm_num [run_pacer, pacer_step, sleep_amount, target_frame_duration,
      pacer_init, List.replicate, get_average_frame_rate]

/-- C6 witness: one zero-work iteration keeps the metric at 0 (under a
full second), and the second-boundary step publishes the per-second
count. -/
theorem c6_frame_rate_metric_witness :
    get_average_frame_rate (run_pacer [0] pacer_init) = 0 ∧
      (pacer_step 0
          { frame_count := 59, since_last_second := 59 / 60, published := 0 }).1.published
        = 59 + 1 :=
  ⟨c6_frame_rate_metric.2.1 [0] (by norm_num)
      (by norm_num [pacer_total_time, sleep_amount, target_frame_duration]),
    (c6_frame_rate_metric.2.2.1 0
      { frame_count := 59, since_last_second := 59 / 60, published := 0 }
      (by norm_num [sleep_amount, target_frame_duration])).1⟩

/-- C7: a host resize event carrying pixel dimensions overwrites the
resolution of every window entity with those dimensions and emits exactly
one engine resize event per window entity, each carrying that entity and
the width and height converted to floating point, appended to the event
queue in entity order. -/
theorem c7_resize_translation (width height : Nat) (app : AppModel) :
    ((handle_window_resize width height app).windows.map Prod.fst =
        app.windows.map Prod.fst) ∧
      (∀ p ∈ (handle_window_resize width height app).windows,
        p.2.resolution = (u32_as_f32 width, u32_as_f32 height)) ∧
      (handle_window_resize width height app).resizeEvents =
        app.resizeEvents ++ app.windows.map fun p =>
          { window := p.1, width := u32_as_f32 width, height := u32_as_f32 height } := by
  refine ⟨?_, ?_, rfl⟩
  · rw [show (handle_window_resize width height app).windows =
        app.windows.map fun q => (q.1,
          ({ resolution := (u32_as_f32 width, u32_as_f32 height) } : WindowModel))
      from rfl, List.map_map]
    rfl
  · intro p hp
    rw [show (handle_window_resize width height app).windows =
        app.windows.map fun q => (q.1,
          ({ resolution := (u32_as_f32 width, u32_as_f32 height) } : WindowModel))
      from rfl] at hp
    obtain ⟨q, _, rfl⟩ := List.mem_map.mp hp
    rfl

/-- C7 witness: a resize to 800 x 600 delivered on the initial single
window yields the translated resolution and exactly one emitted event. -/
theorem c7_resize_translation_witness :
    ((0, ({ resolution := (u32_as_f32 800, u32_as_f32 600) } : WindowModel)) :
        Nat × WindowModel).2.resolution = (u32_as_f32 800, u32_as_f32 600) ∧
      (handle_window_resize 800 600 app_init).resizeEvents =
        [{ window := 0, width := u32_as_f32 800, height := u32_as_f32 600 }] :=
  ⟨(c7_resize_translation 800 600 app_init).2.1
      (0, { resolution := (u32_as_f32 800, u32_as_f32 600) })
      (by
        rw [show (handle_window_resize 800 600 app_init).windows =
          [(0, ({ resolution := (u32_as_f32 800, u32_as_f32 600) } : WindowModel))]
          from rfl]
        exact List.mem_singleton.mpr rfl),
    by
      have h := (c7_resize_translation 800 600 app_init).2.2
      simpa [app_init] using h⟩

/-- C8: a scale-factor-change event delivered to the translator leaves the
engine state entirely unchanged: no resolution is modified and no resize
event is emitted. -/
theorem c8_scale_factor_noop (scale : ℚ) (newWidth newHeight : Nat)
    (app : AppModel) :
    handle_window_event (.scaleFactorChanged scale newWidth newHeight) app = app :=
  rfl

/-- C9: from a not-yet-`Cleaned` state, the surface handoff aborts the
process when the primary window lookup fails or surface creation fails,
and under the precondition that the window exists and surface creation
succeeds, no abort is reached. -/
theorem c9_fatal_setup (host : HostModel) (app : AppModel)
    (h : app.pluginsState ≠ .Cleaned) :
    ((host.hasMainWindow = false ∨ host.surfaceOk = false) →
      setup_aborted (handle_ready_event host app) = true) ∧
      (host.hasMainWindow = true → host.surfaceOk = true →
        setup_aborted (handle_ready_event host app) = false) := by
  constructor
  · rintro (hw | hs)
    · simp [handle_ready_event, h, hw, setup_aborted]
    · cases hwin : host.hasMainWindow <;>
        simp [handle_ready_event, h, hwin, hs, setup_aborted]
  · intro hw hs
    simp [handle_ready_event, h, hw, hs, setup_aborted]

/-- C9 witness: a missing primary window aborts the handoff from the
initial state, while a healthy host completes it without abort. -/
theorem c9_fatal_setup_witness :
    setup_aborted (handle_ready_event host_no_window app_init) = true ∧
      setup_aborted (handle_ready_event host_ok app_init) = false :=
  ⟨(c9_fatal_setup host_no_window app_init (by decide)).1 (Or.inl rfl),
    (c9_fatal_setup host_ok app_init (by decide)).2 rfl rfl⟩

/-- C10: in every driver run, counter increments never outnumber
completed engine updates in any prefix of the run, and in total they
coincide, so the counter is incremented only after a completed update;
and the terminal iteration that observes zero open windows emits only the
host cleanup, leaving the pacer (counter and published metric) exactly as
it was, so neither that iteration nor the partially elapsed second at
exit is ever counted or published. -/
theorem c10_counter_after_update :
    (∀ (host : HostModel) (iters : List Iteration) (app : AppModel)
        (p q : List Action),
        run_log (run_tauri_app host iters app) = p ++ q →
        p.count Action.count ≤ p.count Action.update) ∧
      (∀ (host : HostModel) (iters : List Iteration) (app : AppModel),
        (run_log (run_tauri_app host iters app)).count Action.count =
          (run_log (run_tauri_app host iters app)).count Action.update) ∧
      (∀ (host : HostModel) (it : Iteration) (app appE : AppModel)
        (pacer : PacerState),
        it.windows_empty = true →
        run_iteration_events host it.events app = .ok appE →
        driver_step host it app pacer =
          .ok (appE, pacer, [Action.hostCleanup], true)) := by
  refine ⟨?_, ?_, ?_⟩
  · intro host iters app p q h
    exact (run_loop_log_counts host iters app pacer_init [] 0
      counts_le_updates_nil rfl).1 p q h
  · intro host iters app
    exact (run_loop_log_counts host iters app pacer_init [] 0
      counts_le_updates_nil rfl).2
  · intro host it app appE pacer hw he
    exact driver_step_break host it app pacer appE hw he

/-- C10 witness: in the one-iteration steady-state run the log prefix
before the counter increment carries one update and no count, and the
zero-window iteration leaves the pacer untouched. -/
theorem c10_counter_after_update_witness :
    ([Action.update] : List Action).count Action.count ≤
        ([Action.update] : List Action).count Action.update ∧
      driver_step host_ok iter_empty app_init pacer_init =
        .ok (app_init, pacer_init, [Action.hostCleanup], true) :=
  ⟨c10_counter_after_update.1 host_ok [iter_plain] app_init
      [Action.update] [Action.count] (by
        norm_num [run_tauri_app, run_tauri_app_loop, driver_step,
          run_iteration_events, iter_plain, host_ok, pacer_step, sleep_amount,
          target_frame_duration, pacer_init, run_log]),
    c10_counter_after_update.2.2 host_ok iter_empty app_init app_init pacer_init
      rfl rfl⟩

end BevyTauri
